import Mathlib

/-!
A shallow embedding of the task-tracking core in `task_manager.py`:
the `Task` entity (construction, completion, serialization), the
`TaskManager` store (CRUD, persistence, query), and a small
reference-heap model capturing Python's list-aliasing semantics for
`list_tasks`.  Timestamps (`datetime.now()`) are threaded in as an
explicit `now : String` argument; the persisted JSON file is modelled
structurally as either syntactically invalid content or a sequence of
records.
-/

namespace TaskMgr

/-- The `Priority` enumeration: members LOW, MEDIUM, HIGH. -/
inductive Priority where
  | LOW
  | MEDIUM
  | HIGH
deriving DecidableEq, BEq, Inhabited

/-- `Priority.name`: the symbolic name of an enum member (Python `enum` `.name`). -/
def Priority.name : Priority → String
  | .LOW => "LOW"
  | .MEDIUM => "MEDIUM"
  | .HIGH => "HIGH"

/-- Lookup of a `Priority` member by symbolic name, modelling Python's
`Priority[s]` (case-sensitive; `none` models the `KeyError` case). -/
def Priority.fromName : String → Option Priority
  | "LOW" => some .LOW
  | "MEDIUM" => some .MEDIUM
  | "HIGH" => some .HIGH
  | _ => none

/-- The `Status` enumeration: members PENDING, IN_PROGRESS, COMPLETED. -/
inductive Status where
  | PENDING
  | IN_PROGRESS
  | COMPLETED
deriving DecidableEq, BEq, Inhabited

/-- `Status.value`: the display-string value of an enum member (Python `enum` `.value`). -/
def Status.value : Status → String
  | .PENDING => "Pending"
  | .IN_PROGRESS => "In Progress"
  | .COMPLETED => "Completed"

/-- Lookup of a `Status` member by display string, modelling Python's
`Status(s)` (exact match; `none` models the `ValueError` case). -/
def Status.fromValue : String → Option Status
  | "Pending" => some .PENDING
  | "In Progress" => some .IN_PROGRESS
  | "Completed" => some .COMPLETED
  | _ => none

/-- The `Task` entity: the seven instance attributes set by `Task.__init__`
(`due_date` and `completed_at` are nullable). -/
structure Task where
  title : String
  description : String
  due_date : Option String
  priority : Priority
  status : Status
  created_at : String
  completed_at : Option String
deriving DecidableEq, Inhabited

/-- `Task.__init__`: stores the five arguments, sets `created_at` to the
current timestamp (threaded in as `now`) and `completed_at` to `None`. -/
def Task.construct (title : String) (description : String) (due_date : Option String)
    (priority : Priority) (status : Status) (now : String) : Task :=
  { title := title, description := description, due_date := due_date,
    priority := priority, status := status, created_at := now, completed_at := none }

/-- `Task.mark_complete`: sets `status = Status.COMPLETED` and `completed_at`
to the current timestamp. -/
def Task.mark_complete (t : Task) (now : String) : Task :=
  { t with status := Status.COMPLETED, completed_at := some now }

/-- Python exceptions raised by the deserialization and update paths:
`KeyError` (missing dict key, unknown enum name) and `ValueError`
(unknown enum value). -/
inductive PyExn where
  | KeyError (key : String)
  | ValueError (value : String)
deriving DecidableEq

/-- A persisted task record: one JSON object from the task file.  Each of the
seven keys may be absent (`none` at the outer `Option`); `due_date` and
`completed_at` additionally admit a JSON `null` value (the inner `Option`). -/
structure Record where
  title : Option String
  description : Option String
  due_date : Option (Option String)
  priority : Option String
  status : Option String
  created_at : Option String
  completed_at : Option (Option String)
deriving DecidableEq

/-- `Task.to_dict`: serializes a task, with `priority` by symbolic name and
`status` by display string; every key is present. -/
def Task.to_dict (t : Task) : Record :=
  { title := some t.title, description := some t.description,
    due_date := some t.due_date, priority := some t.priority.name,
    status := some t.status.value, created_at := some t.created_at,
    completed_at := some t.completed_at }

/-- `Task.from_dict`: reads the record's keys in source order (a missing key
raises `KeyError`), resolves `priority` by name (`Priority[...]`, `KeyError`
on failure) and `status` by value (`Status(...)`, `ValueError` on failure),
constructs the task via `Task.__init__` (with the current time `now`), then
overwrites `created_at` and `completed_at` verbatim from the record. -/
def Task.from_dict (now : String) (data : Record) : Except PyExn Task :=
  match data.title with
  | none => .error (.KeyError "title")
  | some title =>
    match data.description with
    | none => .error (.KeyError "description")
    | some description =>
      match data.due_date with
      | none => .error (.KeyError "due_date")
      | some due_date =>
        match data.priority with
        | none => .error (.KeyError "priority")
        | some pname =>
          match Priority.fromName pname with
          | none => .error (.KeyError pname)
          | some priority =>
            match data.status with
            | none => .error (.KeyError "status")
            | some sval =>
              match Status.fromValue sval with
              | none => .error (.ValueError sval)
              | some status =>
                match data.created_at with
                | none => .error (.KeyError "created_at")
                | some created_at =>
                  match data.completed_at with
                  | none => .error (.KeyError "completed_at")
                  | some completed_at =>
                    let task := Task.construct title description due_date priority status now
                    .ok { task with created_at := created_at, completed_at := completed_at }

theorem Priority.fromName_name (p : Priority) : Priority.fromName p.name = some p := by
  cases p <;> rfl

theorem Status.fromValue_value (s : Status) : Status.fromValue s.value = some s := by
  cases s <;> rfl

/-- Round-trip helper: deserializing a serialized task reproduces it exactly. -/
theorem from_dict_to_dict (now : String) (t : Task) :
    Task.from_dict now t.to_dict = .ok t := by
  obtain ⟨title, description, due_date, priority, status, created_at, completed_at⟩ := t
  simp only [Task.to_dict, Task.from_dict, Priority.fromName_name, Status.fromValue_value,
    Task.construct]

/-- Claim C1: for every task (all fields well-typed: strings, nullable strings,
one of the three priorities, one of the three statuses),
`from_dict (to_dict t)` reproduces `t` exactly, every field including
`created_at` and `completed_at` taken verbatim from the record. -/
theorem roundtrip_law (now : String) (t : Task) :
    Task.from_dict now t.to_dict = .ok t :=
  from_dict_to_dict now t

/-- Claim C10: `Task.__init__` always sets `completed_at` to `None`, whatever
the `status` argument; in particular a task constructed directly in the
COMPLETED state has `status = COMPLETED` but `completed_at = None`. -/
theorem construct_completed_at_none (title description : String) (due_date : Option String)
    (priority : Priority) (status : Status) (now : String) :
    (Task.construct title description due_date priority status now).completed_at = none ∧
    (Task.construct title description due_date priority Status.COMPLETED now).status =
      Status.COMPLETED ∧
    (Task.construct title description due_date priority Status.COMPLETED now).completed_at =
      none :=
  ⟨rfl, rfl, rfl⟩

/-- The content of the persisted task file: either syntactically invalid
JSON (the `json.JSONDecodeError` case of `json.load`), or a parsed
sequence of task records. -/
inductive FileContent where
  | invalid
  | records (rs : List Record)
deriving DecidableEq

/-- The `TaskManager` store: the in-memory task collection together with the
file it persists to (`none` when no file exists at `self.filename`). -/
structure TaskManager where
  tasks : List Task
  file : Option FileContent
deriving DecidableEq

/-- The list comprehension `[Task.from_dict(data) for data in tasks_data]`:
materializes each record in order, propagating the first exception. -/
def loadAll (now : String) : List Record → Except PyExn (List Task)
  | [] => .ok []
  | d :: rest =>
    match Task.from_dict now d with
    | .error e => .error e
    | .ok t =>
      match loadAll now rest with
      | .error e => .error e
      | .ok ts => .ok (t :: ts)

/-- `TaskManager.save_tasks`: overwrites the file with the serialized
in-memory collection (each task via `to_dict`). -/
def save_tasks (m : TaskManager) : TaskManager :=
  { m with file := some (FileContent.records (m.tasks.map Task.to_dict)) }

/-- `TaskManager.load_tasks`: if the file exists, parse it; on a JSON decode
failure reset the collection to empty (swallowing the error); otherwise
materialize every record via `from_dict`, propagating its exceptions.
If no file exists, the collection is left as it was. -/
def load_tasks (now : String) (m : TaskManager) : Except PyExn TaskManager :=
  match m.file with
  | none => .ok m
  | some FileContent.invalid => .ok { m with tasks := [] }
  | some (FileContent.records rs) =>
    match loadAll now rs with
    | .error e => .error e
    | .ok ts => .ok { m with tasks := ts }

/-- `TaskManager.add_task`: appends the task and persists. -/
def add_task (m : TaskManager) (task : Task) : TaskManager :=
  save_tasks { m with tasks := m.tasks ++ [task] }

/-- `TaskManager.delete_task`: for `0 <= index < len(tasks)` removes the
element, persists and returns `True`; otherwise returns `False`. -/
def delete_task (m : TaskManager) (index : Int) : TaskManager × Bool :=
  if 0 ≤ index ∧ index < (m.tasks.length : Int) then
    (save_tasks { m with tasks := m.tasks.eraseIdx index.toNat }, true)
  else
    (m, false)

/-- One keyword argument to `update_task`, tagged by the attribute name it
carries: the seven task attributes, or a name the task does not have
(the `hasattr` check fails for it). -/
inductive UpdateEntry where
  | title (v : String)
  | description (v : String)
  | due_date (v : Option String)
  | priority (v : String)
  | status (v : String)
  | created_at (v : String)
  | completed_at (v : Option String)
  | unrecognized (key : String)
deriving DecidableEq

/-- `str.upper()` on the char-list view of a Python string. -/
def pyUpper (s : String) : String :=
  ⟨s.data.map Char.toUpper⟩

/-- One iteration of the `update_task` loop body on one keyword argument:
an unrecognized name is skipped (`hasattr` is false); `priority` is looked
up by upper-cased symbolic name (`Priority[value.upper()]`, `KeyError` on
failure); `status` is looked up by display string (`Status(value)`,
`ValueError` on failure); any other attribute is overwritten with the
given value. -/
def Task.applyEntry (t : Task) : UpdateEntry → Except PyExn Task
  | .title v => .ok { t with title := v }
  | .description v => .ok { t with description := v }
  | .due_date v => .ok { t with due_date := v }
  | .priority v =>
    match Priority.fromName (pyUpper v) with
    | some p => .ok { t with priority := p }
    | none => .error (.KeyError (pyUpper v))
  | .status v =>
    match Status.fromValue v with
    | some s => .ok { t with status := s }
    | none => .error (.ValueError v)
  | .created_at v => .ok { t with created_at := v }
  | .completed_at v => .ok { t with completed_at := v }
  | .unrecognized _ => .ok t

/-- The `for key, value in kwargs.items()` loop of `update_task`, applied in
keyword order, propagating the first exception. -/
def applyEntries (t : Task) : List UpdateEntry → Except PyExn Task
  | [] => .ok t
  | e :: rest =>
    match t.applyEntry e with
    | .error err => .error err
    | .ok t2 => applyEntries t2 rest

/-- `TaskManager.update_task`: for an in-range index, applies every keyword
argument to the task at that index, persists and returns `True`; for an
out-of-range index returns `False` without touching anything. -/
def update_task (m : TaskManager) (index : Int) (kwargs : List UpdateEntry) :
    Except PyExn (TaskManager × Bool) :=
  if 0 ≤ index ∧ index < (m.tasks.length : Int) then
    match applyEntries (m.tasks.getD index.toNat default) kwargs with
    | .error e => .error e
    | .ok t2 =>
      .ok (save_tasks { m with tasks := m.tasks.set index.toNat t2 }, true)
  else
    .ok (m, false)

/-- `str.lower()` on the char-list view of a Python string. -/
def pyLower (s : String) : List Char :=
  s.data.map Char.toLower

/-- The Python substring test `needle in hay` on char lists. -/
def pyContains (needle : List Char) : List Char → Bool
  | [] => needle.isEmpty
  | c :: rest => needle.isPrefixOf (c :: rest) || pyContains needle rest

/-- `TaskManager.search_tasks`: lower-cases the keyword and keeps the tasks
whose lower-cased title or description contains it as a substring, in
collection order. -/
def search_tasks (m : TaskManager) (keyword : String) : List Task :=
  m.tasks.filter (fun task =>
    pyContains (pyLower keyword) (pyLower task.title) ||
      pyContains (pyLower keyword) (pyLower task.description))

/-- A record that `from_dict` must reject: a required key is missing, or the
`priority` name is unrecognized, or the `status` display string is
unrecognized. -/
def recordFaulty (r : Record) : Bool :=
  r.title.isNone || r.description.isNone || r.due_date.isNone || r.priority.isNone ||
    r.status.isNone || r.created_at.isNone || r.completed_at.isNone ||
    (r.priority.bind Priority.fromName).isNone || (r.status.bind Status.fromValue).isNone

/-- A reference-semantics view of the store for the aliasing behaviour of
`list_tasks`: Python list objects live in a heap of task lists, and
`self.tasks` is a reference into it. -/
structure Store where
  heap : List (List Task)
  tasksRef : Nat
deriving DecidableEq

/-- Dereference a list object. -/
def Store.read (s : Store) (r : Nat) : List Task :=
  s.heap.getD r []

/-- Overwrite a list object in place. -/
def Store.write (s : Store) (r : Nat) (v : List Task) : Store :=
  { s with heap := s.heap.set r v }

/-- Allocate a fresh list object, returning its reference. -/
def Store.alloc (s : Store) (v : List Task) : Store × Nat :=
  ({ s with heap := s.heap ++ [v] }, s.heap.length)

/-- `TaskManager.list_tasks` under reference semantics: with a (truthy)
status filter it builds a fresh list of the matching tasks; with no filter
it returns the reference to `self.tasks` itself. -/
def Store.list_tasks (s : Store) (filter_status : Option Status) : Store × Nat :=
  match filter_status with
  | some st => s.alloc ((s.read s.tasksRef).filter (fun task => task.status == st))
  | none => (s, s.tasksRef)

/-- Python's `list.append(x)` on a list object: mutates it in place. -/
def Store.appendTask (s : Store) (r : Nat) (x : Task) : Store :=
  s.write r (s.read r ++ [x])

/-- Whether one `update_task` keyword argument resolves: a `priority` value
must name a member after upper-casing, a `status` value must be a display
string; every other entry always applies. -/
def entryResolvable : UpdateEntry → Bool
  | .priority v => (Priority.fromName (pyUpper v)).isSome
  | .status v => (Status.fromValue v).isSome
  | _ => true

/-- Modelled from the spec: for each supplied field name the Task entity
recognizes, overwrite its value (`priority` looked up by upper-cased
symbolic name, `status` by display string); unrecognized field names are
silently ignored; all other fields keep their previous values. -/
def specApplyField (t : Task) : UpdateEntry → Task
  | .title v => { t with title := v }
  | .description v => { t with description := v }
  | .due_date v => { t with due_date := v }
  | .priority v => { t with priority := (Priority.fromName (pyUpper v)).getD t.priority }
  | .status v => { t with status := (Status.fromValue v).getD t.status }
  | .created_at v => { t with created_at := v }
  | .completed_at v => { t with completed_at := v }
  | .unrecognized _ => t

/-- Modelled from the spec: the keyword occurs in the title or the
description as a substring under case-insensitive comparison. -/
def specSubstringCI (keyword s : String) : Prop :=
  pyLower keyword <:+: pyLower s

instance (keyword s : String) : Decidable (specSubstringCI keyword s) :=
  List.decidableInfix (pyLower keyword) (pyLower s)

/-- A sample task used in concrete witnesses and counterexamples. -/
def sampleTask : Task :=
  Task.construct "Buy milk" "From the store" none Priority.MEDIUM Status.PENDING
    "2024-01-01 10:00:00"

/-- A second sample task. -/
def sampleTask2 : Task :=
  Task.construct "Walk dog" "" none Priority.LOW Status.PENDING "2024-01-02 09:00:00"

/-- The task titled "project-alpha-plan" from the search scenario. -/
def alphaTask : Task :=
  Task.construct "project-alpha-plan" "quarterly planning" none Priority.HIGH
    Status.IN_PROGRESS "2024-02-01 08:00:00"

/-- A store holding only `alphaTask`. -/
def alphaManager : TaskManager :=
  { tasks := [alphaTask], file := none }

/-- A one-task store in the reference-heap model. -/
def aliasStore : Store :=
  { heap := [[sampleTask]], tasksRef := 0 }

/-- A sample field map for the `update_task` witness: a lower-case priority
name, a plain field, and a field name the task does not have. -/
def sampleKwargs : List UpdateEntry :=
  [UpdateEntry.priority "high", UpdateEntry.title "New title",
    UpdateEntry.unrecognized "colour"]

/-- A record with every required key missing. -/
def badRecord : Record :=
  { title := none, description := none, due_date := none, priority := none,
    status := none, created_at := none, completed_at := none }

theorem pyContains_nil (hay : List Char) : pyContains [] hay = true := by
  cases hay <;> simp [pyContains, List.isPrefixOf]

theorem pyContains_iff (needle hay : List Char) :
    pyContains needle hay = true ↔ needle <:+: hay := by
  induction hay with
  | nil => simp [pyContains, List.isEmpty_iff, List.infix_nil]
  | cons c rest ih =>
    simp [pyContains, Bool.or_eq_true, List.isPrefixOf_iff_prefix, ih, List.infix_cons_iff]

theorem loadAll_map_to_dict (now : String) (l : List Task) :
    loadAll now (l.map Task.to_dict) = .ok l := by
  induction l with
  | nil => rfl
  | cons t rest ih => simp only [List.map_cons, loadAll, from_dict_to_dict, ih]

/-- A faulty record makes `from_dict` raise. -/
theorem from_dict_error_of_faulty (now : String) (r : Record)
    (h : recordFaulty r = true) : ∃ e, Task.from_dict now r = .error e := by
  obtain ⟨ot, od, odd, op, os, oc, oca⟩ := r
  cases ot with
  | none => exact ⟨.KeyError "title", rfl⟩
  | some title =>
  cases od with
  | none => exact ⟨.KeyError "description", rfl⟩
  | some description =>
  cases odd with
  | none => exact ⟨.KeyError "due_date", rfl⟩
  | some due_date =>
  cases op with
  | none => exact ⟨.KeyError "priority", rfl⟩
  | some pname =>
  cases hp : Priority.fromName pname with
  | none => exact ⟨.KeyError pname, by simp only [Task.from_dict, hp]⟩
  | some priority =>
  cases os with
  | none => exact ⟨.KeyError "status", by simp only [Task.from_dict, hp]⟩
  | some sval =>
  cases hs : Status.fromValue sval with
  | none => exact ⟨.ValueError sval, by simp only [Task.from_dict, hp, hs]⟩
  | some status =>
  cases oc with
  | none => exact ⟨.KeyError "created_at", by simp only [Task.from_dict, hp, hs]⟩
  | some created_at =>
  cases oca with
  | none => exact ⟨.KeyError "completed_at", by simp only [Task.from_dict, hp, hs]⟩
  | some completed_at =>
  simp [recordFaulty, hp, hs] at h

/-- Materializing a record list fails whenever some member record fails. -/
theorem loadAll_error_of_mem (now : String) (rs : List Record) (r : Record)
    (hmem : r ∈ rs) (hr : ∃ e, Task.from_dict now r = .error e) :
    ∃ e, loadAll now rs = .error e := by
  induction rs with
  | nil => cases hmem
  | cons a rest ih =>
    rcases List.mem_cons.mp hmem with heq | hmem2
    · subst heq
      obtain ⟨e, he⟩ := hr
      exact ⟨e, by simp only [loadAll, he]⟩
    · cases hfa : Task.from_dict now a with
      | error e => exact ⟨e, by simp only [loadAll, hfa]⟩
      | ok t =>
        obtain ⟨e, he⟩ := ih hmem2
        exact ⟨e, by simp only [loadAll, hfa, he]⟩

theorem applyEntry_resolvable (t : Task) (e : UpdateEntry)
    (h : entryResolvable e = true) : t.applyEntry e = .ok (specApplyField t e) := by
  cases e with
  | title v => rfl
  | description v => rfl
  | due_date v => rfl
  | priority v =>
    cases hp : Priority.fromName (pyUpper v) with
    | none => simp [entryResolvable, hp] at h
    | some p => simp [Task.applyEntry, specApplyField, hp]
  | status v =>
    cases hs : Status.fromValue v with
    | none => simp [entryResolvable, hs] at h
    | some s => simp [Task.applyEntry, specApplyField, hs]
  | created_at v => rfl
  | completed_at v => rfl
  | unrecognized k => rfl

theorem applyEntries_resolvable (t : Task) (kwargs : List UpdateEntry)
    (h : ∀ e ∈ kwargs, entryResolvable e = true) :
    applyEntries t kwargs = .ok (kwargs.foldl specApplyField t) := by
  induction kwargs generalizing t with
  | nil => rfl
  | cons e rest ih =>
    have he := h e (List.mem_cons_self e rest)
    simp only [applyEntries, applyEntry_resolvable t e he, List.foldl_cons]
    exact ih _ (fun x hx => h x (List.mem_cons_of_mem e hx))

/-- Claim C2 (amended): with a status filter, `list_tasks` yields exactly the
stored tasks of that status in insertion order (an empty list, not an
error, when none match) in a freshly allocated list, so mutating the
result leaves the store's collection unchanged; with no filter it returns
the store's internal collection itself (the very same list object), not a
new list. -/
theorem list_tasks_spec (s : Store) (st : Status) (v : List Task)
    (h : s.tasksRef < s.heap.length) :
    (s.list_tasks (some st)).1.read (s.list_tasks (some st)).2 =
      (s.read s.tasksRef).filter (fun task => task.status == st) ∧
    (s.list_tasks (some st)).2 ≠ s.tasksRef ∧
    ((s.list_tasks (some st)).1.write (s.list_tasks (some st)).2 v).read s.tasksRef =
      s.read s.tasksRef ∧
    s.list_tasks none = (s, s.tasksRef) := by
  have hne : s.heap.length ≠ s.tasksRef := Nat.ne_of_gt h
  refine ⟨?_, hne, ?_, rfl⟩
  · simp only [Store.list_tasks, Store.alloc, Store.read, List.getD_eq_getElem?_getD,
      List.getElem?_concat_length, Option.getD_some]
  · simp only [Store.list_tasks, Store.alloc, Store.write, Store.read,
      List.getD_eq_getElem?_getD, List.getElem?_set_ne hne, List.getElem?_append]
    rw [if_pos h]

/-- Witness for C2's amended theorem at a concrete one-task store. -/
theorem list_tasks_spec_witness :
    aliasStore.tasksRef < aliasStore.heap.length ∧
    aliasStore.list_tasks none = (aliasStore, aliasStore.tasksRef) :=
  ⟨by decide, (list_tasks_spec aliasStore Status.COMPLETED [] (by decide)).2.2.2⟩

/-- Counterexample to C2 as stated: with no filter, the sequence returned by
`list_tasks` is the store's internal list itself, so appending to it
changes the store's collection. -/
theorem list_tasks_alias_counterexample :
    ((aliasStore.list_tasks none).1.appendTask (aliasStore.list_tasks none).2
        sampleTask2).read aliasStore.tasksRef ≠
      aliasStore.read aliasStore.tasksRef := by
  decide

/-- Claim C3: `mark_complete` sets the status to COMPLETED and `completed_at`
to the current timestamp (hence non-null), whereas the generic
`update_task` with `status = "Completed"` on an in-range index sets that
task's status to COMPLETED but leaves its `completed_at` unchanged. -/
theorem mark_complete_vs_update (t : Task) (now : String) (m : TaskManager) (i : Int)
    (h0 : 0 ≤ i) (h1 : i < (m.tasks.length : Int)) :
    (t.mark_complete now).status = Status.COMPLETED ∧
    (t.mark_complete now).completed_at = some now ∧
    ∃ m2 : TaskManager,
      update_task m i [UpdateEntry.status "Completed"] = .ok (m2, true) ∧
      (m2.tasks.getD i.toNat default).status = Status.COMPLETED ∧
      (m2.tasks.getD i.toNat default).completed_at =
        (m.tasks.getD i.toNat default).completed_at := by
  refine ⟨rfl, rfl, ?_⟩
  have hlt : i.toNat < m.tasks.length := (Int.toNat_lt h0).mpr h1
  refine ⟨save_tasks ⟨m.tasks.set i.toNat ({ m.tasks.getD i.toNat default with status := Status.COMPLETED }), m.file⟩, ?_, ?_, ?_⟩
  · unfold update_task
    rw [if_pos ⟨h0, h1⟩]
    rfl
  · simp [save_tasks, List.getD_eq_getElem?_getD, List.getElem?_set_self hlt]
  · simp [save_tasks, List.getD_eq_getElem?_getD, List.getElem?_set_self hlt]

/-- Witness for C3 at a concrete one-task store and index 0. -/
theorem mark_complete_vs_update_witness :
    (sampleTask.mark_complete "2024-05-05 12:00:00").status = Status.COMPLETED ∧
    (sampleTask.mark_complete "2024-05-05 12:00:00").completed_at =
      some "2024-05-05 12:00:00" ∧
    ∃ m2 : TaskManager,
      update_task ⟨[sampleTask], none⟩ 0 [UpdateEntry.status "Completed"] = .ok (m2, true) ∧
      (m2.tasks.getD (0 : Int).toNat default).status = Status.COMPLETED ∧
      (m2.tasks.getD (0 : Int).toNat default).completed_at =
        ((⟨[sampleTask], none⟩ : TaskManager).tasks.getD (0 : Int).toNat
          default).completed_at :=
  mark_complete_vs_update sampleTask "2024-05-05 12:00:00" ⟨[sampleTask], none⟩ 0
    (by decide) (by decide)

/-- Claim C4: `load_tasks` discriminates between error kinds: syntactically
invalid file content resets the collection to empty without raising, while
a parsed record with a missing required key, an unrecognized priority name
or an unrecognized status string makes the whole load raise. -/
theorem load_error_discrimination (now : String) :
    (∀ m : TaskManager, m.file = some FileContent.invalid →
      load_tasks now m = .ok { m with tasks := [] }) ∧
    (∀ (m : TaskManager) (rs : List Record) (r : Record),
      m.file = some (FileContent.records rs) → r ∈ rs → recordFaulty r = true →
      ∃ e, load_tasks now m = .error e) := by
  constructor
  · intro m hm
    simp only [load_tasks, hm]
  · intro m rs r hm hmem hr
    obtain ⟨e, he⟩ := loadAll_error_of_mem now rs r hmem (from_dict_error_of_faulty now r hr)
    exact ⟨e, by simp only [load_tasks, hm, he]⟩

/-- Witness for C4: a concrete invalid file and a concrete faulty record. -/
theorem load_error_discrimination_witness :
    load_tasks "2024-03-03 00:00:00" ⟨[], some FileContent.invalid⟩ =
      .ok ⟨[], some FileContent.invalid⟩ ∧
    ∃ e, load_tasks "2024-03-03 00:00:00" ⟨[], some (FileContent.records [badRecord])⟩ =
      .error e :=
  ⟨(load_error_discrimination "2024-03-03 00:00:00").1 ⟨[], some FileContent.invalid⟩ rfl,
    (load_error_discrimination "2024-03-03 00:00:00").2 ⟨[], some (FileContent.records
      [badRecord])⟩ [badRecord] badRecord rfl (List.mem_singleton.mpr rfl) (by decide)⟩

/-- Claim C5: `add_task` followed by `save_tasks` followed by a fresh load
from the same file yields a collection equal to the in-memory one at save
time: the same list of tasks, hence record-by-record equal serializations,
the same length and the same order. -/
theorem add_save_load_roundtrip (m : TaskManager) (t : Task) (now : String) :
    ∃ m2 : TaskManager,
      load_tasks now { tasks := [], file := (save_tasks (add_task m t)).file } = .ok m2 ∧
      m2.tasks = (save_tasks (add_task m t)).tasks ∧
      m2.tasks.map Task.to_dict = (save_tasks (add_task m t)).tasks.map Task.to_dict ∧
      m2.tasks.length = (save_tasks (add_task m t)).tasks.length := by
  refine ⟨{ tasks := m.tasks ++ [t], file := (save_tasks (add_task m t)).file },
    ?_, rfl, rfl, rfl⟩
  simp only [save_tasks, add_task, load_tasks, loadAll_map_to_dict]

/-- Claim C6 (amended): for an in-range index and keyword arguments whose
priority values resolve (case-insensitively, after upper-casing) and whose
status values are exact display strings, `update_task` overwrites exactly
the supplied recognized fields (unrecognized names silently ignored,
unsupplied fields kept) and returns `True`. -/
theorem update_task_fields_spec (m : TaskManager) (i : Int) (kwargs : List UpdateEntry)
    (h0 : 0 ≤ i) (h1 : i < (m.tasks.length : Int))
    (hres : ∀ e ∈ kwargs, entryResolvable e = true) :
    update_task m i kwargs =
      .ok (save_tasks ⟨m.tasks.set i.toNat (kwargs.foldl specApplyField (m.tasks.getD i.toNat default)), m.file⟩, true) := by
  unfold update_task
  rw [if_pos ⟨h0, h1⟩, applyEntries_resolvable _ _ hres]

/-- Witness for C6's amended theorem at a concrete store and field map. -/
theorem update_task_fields_spec_witness :
    update_task ⟨[sampleTask], none⟩ 0 sampleKwargs =
      .ok (save_tasks ⟨List.set [sampleTask] (0 : Int).toNat (sampleKwargs.foldl specApplyField (List.getD [sampleTask] (0 : Int).toNat default)), none⟩, true) :=
  update_task_fields_spec ⟨[sampleTask], none⟩ 0 sampleKwargs (by decide) (by decide)
    (by decide)

/-- Counterexample to C6 as stated: a supplied priority value whose
upper-casing names no member makes `update_task` raise `KeyError`
instead of returning `True`. -/
theorem update_task_bad_value_counterexample :
    update_task ⟨[sampleTask], none⟩ 0 [UpdateEntry.priority "banana"] =
      .error (PyExn.KeyError "BANANA") := by
  rfl

/-- Claim C7: for every out-of-range index, `delete_task` and `update_task`
return `False` without raising, leaving the store (collection and
persisted file) entirely unchanged. -/
theorem out_of_range_noop (m : TaskManager) (i : Int) (kwargs : List UpdateEntry)
    (h : ¬(0 ≤ i ∧ i < (m.tasks.length : Int))) :
    delete_task m i = (m, false) ∧ update_task m i kwargs = .ok (m, false) := by
  constructor
  · unfold delete_task
    rw [if_neg h]
  · unfold update_task
    rw [if_neg h]

/-- Witness for C7 at a concrete store and the out-of-range index 5. -/
theorem out_of_range_noop_witness :
    delete_task ⟨[sampleTask], none⟩ 5 = (⟨[sampleTask], none⟩, false) ∧
    update_task ⟨[sampleTask], none⟩ 5 [UpdateEntry.title "New title"] =
      .ok (⟨[sampleTask], none⟩, false) :=
  out_of_range_noop ⟨[sampleTask], none⟩ 5 [UpdateEntry.title "New title"] (by decide)

/-- Claim C8: for every non-empty keyword, `search_tasks` returns exactly the
stored tasks whose title or description contains the keyword as a
substring under case-insensitive comparison, in insertion order; in
particular searching "ALPHA" finds the task titled "project-alpha-plan". -/
theorem search_tasks_spec (m : TaskManager) (keyword : String) (_h : keyword ≠ "") :
    search_tasks m keyword = m.tasks.filter (fun task =>
      decide (specSubstringCI keyword task.title ∨
        specSubstringCI keyword task.description)) ∧
    search_tasks alphaManager "ALPHA" = [alphaTask] := by
  constructor
  · unfold search_tasks
    congr 1
    funext task
    rw [Bool.eq_iff_iff]
    simp [pyContains_iff, specSubstringCI]
  · decide

/-- Witness for C8: the "ALPHA" search scenario. -/
theorem search_tasks_spec_witness :
    search_tasks alphaManager "ALPHA" = [alphaTask] :=
  (search_tasks_spec alphaManager "ALPHA" (by decide)).2

/-- Claim C9: at the store level the empty keyword is not rejected:
`search_tasks` with `""` returns every stored task in insertion order. -/
theorem search_empty_keyword (m : TaskManager) : search_tasks m "" = m.tasks := by
  unfold search_tasks
  apply List.filter_eq_self.mpr
  intro task _
  have h0 : pyLower "" = [] := rfl
  rw [h0]
  simp [pyContains_nil]

end TaskMgr
